import Mathlib

/-!
Verification of `objdiff`'s instruction-diff token emitter
(`src/objdiff-core/src/diff/display.rs`).

The Rust module renders one instruction-level diff into an ordered stream of
`DiffText` tokens by invoking a fallible sink callback once per token.  We
embed the module shallowly: the sink becomes an explicit state-passing
function `σ → DiffText → Except E σ`, the `?` operator becomes `Except`
bind, `bail!` becomes an internal error value, and the `Option::unwrap` on
the instruction's relocation becomes an explicit internal failure branch.
-/

/-- Modelled from the spec: opaque instruction-argument value payload
("a plain value"); the display code never inspects it, only forwards it
inside `Argument` tokens.  Its concrete definition lives in `crate::obj`,
which is outside the sources under verification. -/
structure ObjInsArgValue where
  val : Nat
deriving DecidableEq, BEq

/-- Modelled from the spec: per-argument diff annotation; opaque to the
display code, which only forwards it inside `Argument` tokens. -/
structure ObjInsArgDiff where
  idx : Nat
deriving DecidableEq, BEq

/-- Symbol reference with signed addend; fields follow the display code's
usage (`reloc.target`, `reloc.target.addend`). -/
structure ObjSymbol where
  name : String
  addend : Int
deriving DecidableEq, BEq

/-- Relocation kinds handled by `display_reloc`, with both the `ppc` and
`mips` feature sets enabled. -/
inductive ObjRelocKind where
  | PpcAddr16Lo
  | PpcAddr16Hi
  | PpcAddr16Ha
  | PpcEmbSda21
  | PpcRel24
  | PpcRel14
  | MipsHi16
  | MipsLo16
  | MipsGot16
  | MipsCall16
  | MipsGpRel16
  | Mips26
  | MipsGpRel32
  | Absolute
deriving DecidableEq, BEq

/-- A relocation record: a kind and a target symbol. -/
structure ObjReloc where
  kind : ObjRelocKind
  target : ObjSymbol
deriving DecidableEq, BEq

/-- Instruction argument, mirroring `ObjInsArg` from `crate::obj` as used by
the display code: plain value, value-with-base, relocation reference,
relocation-with-base, or a signed branch offset (`i32` in Rust, modelled as
`Int`). -/
inductive ObjInsArg where
  | Arg (v : ObjInsArgValue)
  | ArgWithBase (v : ObjInsArgValue)
  | Reloc
  | RelocWithBase
  | BranchOffset (offset : Int)
deriving DecidableEq, BEq

/-- Decoded instruction, with the fields the display code reads:
address (`u32`, modelled as `Nat`), optional source line, mnemonic, numeric
opcode id, arguments, and optional relocation. -/
structure ObjIns where
  address : Nat
  line : Option Nat
  mnemonic : String
  op : Nat
  args : List ObjInsArg
  reloc : Option ObjReloc
deriving DecidableEq, BEq

/-- Branch-link record; the display code reads only `branch_idx`. -/
structure ObjInsBranch where
  branch_idx : Nat
deriving DecidableEq, BEq

/-- One instruction-level diff record (`ObjInsDiff`), with the fields the
display code reads: the optional decoded instruction, per-argument optional
diff annotations, and optional incoming/outgoing branch links. -/
structure ObjInsDiff where
  ins : Option ObjIns
  arg_diff : List (Option ObjInsArgDiff)
  branch_from : Option ObjInsBranch
  branch_to : Option ObjInsBranch
deriving DecidableEq, BEq

/-- The display token type `DiffText`. -/
inductive DiffText where
  | Basic (s : String)
  | BasicColor (s : String) (idx : Nat)
  | Line (n : Nat)
  | Address (n : Nat)
  | Opcode (mnemonic : String) (op : Nat)
  | Argument (v : ObjInsArgValue) (diff : Option ObjInsArgDiff)
  | BranchTarget (n : Nat)
  | Symbol (sym : ObjSymbol)
  | Spacing (n : Nat)
  | Eol
deriving DecidableEq, BEq

/-- Failures internal to the display code: the `bail!` for an unimplemented
relocation kind, and the failure branch of the unchecked
`ins.reloc.as_ref().unwrap()`. -/
inductive InternalErr where
  | unimplemented (msg : String)
  | unwrapNone
deriving DecidableEq, BEq

/-- Result error of the embedded display functions: either the sink's own
error, propagated unchanged, or an internal failure. -/
inductive DisplayErr (E : Type) where
  | sink (e : E)
  | internal (err : InternalErr)
deriving DecidableEq, BEq

/-- A token sink: the embedding of the Rust `FnMut(DiffText) -> Result<()>`
callback, with its mutable state `σ` passed explicitly. -/
abbrev Sink (σ E : Type) := σ → DiffText → Except E σ

/-- One sink invocation (`cb(t)?` in Rust): a sink failure is propagated
unchanged, wrapped in the `sink` constructor. -/
def emit (cb : Sink σ E) (s : σ) (t : DiffText) : Except (DisplayErr E) σ :=
  match cb s t with
  | .ok s2 => .ok s2
  | .error e => .error (.sink e)

/-- Uppercase hexadecimal digit for `n < 16`. -/
def hexDigitChar (n : Nat) : Char :=
  if n < 10 then Char.ofNat (48 + n) else Char.ofNat (55 + n)

/-- Fuelled most-significant-first hex digit accumulator. -/
def hexCharsAux : Nat → Nat → List Char → List Char
  | 0, _, acc => acc
  | fuel + 1, n, acc =>
    if n < 16 then hexDigitChar n :: acc
    else hexCharsAux fuel (n / 16) (hexDigitChar (n % 16) :: acc)

/-- Rust's `format!("{:#X}", n)` for a non-negative value: `0x` prefix and
uppercase hex digits. -/
def hexUpper (n : Nat) : String :=
  "0x" ++ String.mk (hexCharsAux (n + 1) n [])

/-- Wrapping `u32` subtraction (`ins.address - base_addr` on `u32`). -/
def u32sub (a b : Nat) : Nat :=
  (a % 4294967296 + 4294967296 - b % 4294967296) % 4294967296

/-- Rust's `n as i32` applied to a `u32` value: reinterpret mod `2^32` as a
signed 32-bit value. -/
def i32OfU32 (n : Nat) : Int :=
  if n % 4294967296 < 2147483648 then ((n % 4294967296 : Nat) : Int)
  else ((n % 4294967296 : Nat) : Int) - 4294967296

/-- Wrapping of a mathematical integer into the signed 32-bit range,
modelling Rust's (release-mode) wrapping `i32` arithmetic. -/
def i32Wrap (z : Int) : Int :=
  (z + 2147483648) % 4294967296 - 2147483648

/-- Rust's `z as u32` applied to an `i32` value: reinterpret mod `2^32` as
unsigned. -/
def u32OfI32 (z : Int) : Nat :=
  (z % 4294967296).toNat

/-- Embedding of `display_reloc_name`: emit the target symbol, then an
addend suffix depending on the sign of the addend. -/
def display_reloc_name (reloc : ObjReloc) (cb : Sink σ E) (s : σ) :
    Except (DisplayErr E) σ := do
  let s ← emit cb s (.Symbol reloc.target)
  if 0 < reloc.target.addend then
    emit cb s (.Basic ("+" ++ hexUpper reloc.target.addend.toNat))
  else if reloc.target.addend < 0 then
    emit cb s (.Basic ("-" ++ hexUpper (- reloc.target.addend).toNat))
  else
    pure s

/-- Embedding of `display_reloc`: dispatch on the relocation kind. -/
def display_reloc (reloc : ObjReloc) (cb : Sink σ E) (s : σ) :
    Except (DisplayErr E) σ := do
  match reloc.kind with
  | .PpcAddr16Lo => do
    let s ← display_reloc_name reloc cb s
    emit cb s (.Basic "@l")
  | .PpcAddr16Hi => do
    let s ← display_reloc_name reloc cb s
    emit cb s (.Basic "@h")
  | .PpcAddr16Ha => do
    let s ← display_reloc_name reloc cb s
    emit cb s (.Basic "@ha")
  | .PpcEmbSda21 => do
    let s ← display_reloc_name reloc cb s
    emit cb s (.Basic "@sda21")
  | .PpcRel24 => display_reloc_name reloc cb s
  | .PpcRel14 => display_reloc_name reloc cb s
  | .MipsHi16 => do
    let s ← emit cb s (.Basic "%hi(")
    let s ← display_reloc_name reloc cb s
    emit cb s (.Basic ")")
  | .MipsLo16 => do
    let s ← emit cb s (.Basic "%lo(")
    let s ← display_reloc_name reloc cb s
    emit cb s (.Basic ")")
  | .MipsGot16 => do
    let s ← emit cb s (.Basic "%got(")
    let s ← display_reloc_name reloc cb s
    emit cb s (.Basic ")")
  | .MipsCall16 => do
    let s ← emit cb s (.Basic "%call16(")
    let s ← display_reloc_name reloc cb s
    emit cb s (.Basic ")")
  | .MipsGpRel16 => do
    let s ← emit cb s (.Basic "%gp_rel(")
    let s ← display_reloc_name reloc cb s
    emit cb s (.Basic ")")
  | .Mips26 => display_reloc_name reloc cb s
  | .MipsGpRel32 => .error (.internal (.unimplemented "unimplemented: mips gp_rel32"))
  | .Absolute => emit cb s (.Basic "[INVALID]")

/-- The per-argument diff-annotation lookup
`ins_diff.arg_diff.get(i).and_then(|o| o.as_ref())`: total, yielding `none`
past the end of the list. -/
def argDiffAt (d : ObjInsDiff) (i : Nat) : Option ObjInsArgDiff :=
  (d.arg_diff[i]?).bind (fun o => o)

/-- The `new_writing_offset` flag set inside the argument `match`: `true`
exactly for the two `*WithBase` arms. -/
def arg_opens_base : ObjInsArg → Bool
  | .ArgWithBase _ => true
  | .RelocWithBase => true
  | _ => false

/-- The body of the `match arg` dispatch in `display_diff`'s argument loop:
the tokens contributed by one argument (the `new_writing_offset` flag is
`arg_opens_base`). -/
def display_arg_tokens (d : ObjInsDiff) (ins : ObjIns) (base : Nat)
    (cb : Sink σ E) (i : Nat) (arg : ObjInsArg) (s : σ) :
    Except (DisplayErr E) σ := do
  match arg with
  | .Arg v => emit cb s (.Argument v (argDiffAt d i))
  | .ArgWithBase v => do
    let s ← emit cb s (.Argument v (argDiffAt d i))
    emit cb s (.Basic "(")
  | .Reloc =>
    match ins.reloc with
    | some reloc => display_reloc reloc cb s
    | none => .error (.internal .unwrapNone)
  | .RelocWithBase => do
    let s ←
      match ins.reloc with
      | some reloc => display_reloc reloc cb s
      | none => .error (.internal .unwrapNone)
    emit cb s (.Basic "(")
  | .BranchOffset offset =>
    emit cb s (.BranchTarget
      (u32OfI32 (i32Wrap (i32Wrap (offset + i32OfU32 ins.address) - i32OfU32 base))))

/-- The argument loop of `display_diff`: `i` is the loop index, `wo` the
`writing_offset` flag carried between iterations. -/
def display_args (d : ObjInsDiff) (ins : ObjIns) (base : Nat)
    (cb : Sink σ E) : List ObjInsArg → Nat → Bool → σ →
    Except (DisplayErr E) σ
  | [], _, _, s => pure s
  | arg :: rest, i, wo, s => do
    let s ← if i = 0 then emit cb s (.Spacing 1) else pure s
    let s ← if 0 < i ∧ ¬ wo then emit cb s (.Basic ", ") else pure s
    let s ← display_arg_tokens d ins base cb i arg s
    let s ← if wo then emit cb s (.Basic ")") else pure s
    display_args d ins base cb rest (i + 1) (arg_opens_base arg) s

/-- Embedding of `display_diff`: the top-level token emitter. -/
def display_diff (d : ObjInsDiff) (base : Nat) (cb : Sink σ E) (s : σ) :
    Except (DisplayErr E) σ :=
  match d.ins with
  | none => emit cb s .Eol
  | some ins => do
    let s ←
      match ins.line with
      | some line => emit cb s (.Line line)
      | none => pure s
    let s ← emit cb s (.Address (u32sub ins.address base))
    let s ←
      match d.branch_from with
      | some branch => emit cb s (.BasicColor " ~> " branch.branch_idx)
      | none => emit cb s (.Spacing 4)
    let s ← emit cb s (.Opcode ins.mnemonic ins.op)
    let s ← display_args d ins base cb ins.args 0 false s
    let s ←
      match d.branch_to with
      | some branch => emit cb s (.BasicColor " ~>" branch.branch_idx)
      | none => pure s
    emit cb s .Eol

/-- A sink that never fails and records every delivered token in order. -/
def collectSink : Sink (List DiffText) Empty :=
  fun s t => .ok (s ++ [t])

/-- Run `display_diff` with the collecting sink, starting from the empty
log: the full token sequence of one instruction render. -/
def display_diff_list (d : ObjInsDiff) (base : Nat) :
    Except (DisplayErr Empty) (List DiffText) :=
  display_diff d base collectSink []

/-!
## Pure trace semantics

To reason about the token stream independently of any particular sink, we
give each display function a pure trace: the list of tokens it emits to a
never-failing sink, paired with the internal error (if any) that aborts the
run after those tokens.  A simulation theorem below ties the sink-passing
functions to these traces.
-/

/-- A pure emission trace: tokens delivered so far, and the internal error
(if any) that stopped the run after them. -/
abbrev TraceRes := List DiffText × Option InternalErr

/-- Trace of emitting one token. -/
def tok (t : DiffText) : TraceRes := ([t], none)

/-- Empty trace. -/
def tpure : TraceRes := ([], none)

/-- Trace of an internal failure emitting nothing. -/
def terr (e : InternalErr) : TraceRes := ([], some e)

/-- Sequencing of traces: the second runs only if the first did not fail. -/
def tseq (a b : TraceRes) : TraceRes :=
  match a.2 with
  | some _ => a
  | none => (a.1 ++ b.1, b.2)

/-- Trace of `display_reloc_name`. -/
def trace_reloc_name (reloc : ObjReloc) : TraceRes :=
  tseq (tok (.Symbol reloc.target))
    (if 0 < reloc.target.addend then
      tok (.Basic ("+" ++ hexUpper reloc.target.addend.toNat))
    else if reloc.target.addend < 0 then
      tok (.Basic ("-" ++ hexUpper (- reloc.target.addend).toNat))
    else tpure)

/-- Trace of `display_reloc`. -/
def trace_reloc (reloc : ObjReloc) : TraceRes :=
  match reloc.kind with
  | .PpcAddr16Lo => tseq (trace_reloc_name reloc) (tok (.Basic "@l"))
  | .PpcAddr16Hi => tseq (trace_reloc_name reloc) (tok (.Basic "@h"))
  | .PpcAddr16Ha => tseq (trace_reloc_name reloc) (tok (.Basic "@ha"))
  | .PpcEmbSda21 => tseq (trace_reloc_name reloc) (tok (.Basic "@sda21"))
  | .PpcRel24 => trace_reloc_name reloc
  | .PpcRel14 => trace_reloc_name reloc
  | .MipsHi16 => tseq (tok (.Basic "%hi(")) (tseq (trace_reloc_name reloc) (tok (.Basic ")")))
  | .MipsLo16 => tseq (tok (.Basic "%lo(")) (tseq (trace_reloc_name reloc) (tok (.Basic ")")))
  | .MipsGot16 => tseq (tok (.Basic "%got(")) (tseq (trace_reloc_name reloc) (tok (.Basic ")")))
  | .MipsCall16 =>
    tseq (tok (.Basic "%call16(")) (tseq (trace_reloc_name reloc) (tok (.Basic ")")))
  | .MipsGpRel16 =>
    tseq (tok (.Basic "%gp_rel(")) (tseq (trace_reloc_name reloc) (tok (.Basic ")")))
  | .Mips26 => trace_reloc_name reloc
  | .MipsGpRel32 => terr (.unimplemented "unimplemented: mips gp_rel32")
  | .Absolute => tok (.Basic "[INVALID]")

/-- Trace of `display_arg_tokens`. -/
def trace_arg_tokens (d : ObjInsDiff) (ins : ObjIns) (base : Nat)
    (i : Nat) (arg : ObjInsArg) : TraceRes :=
  match arg with
  | .Arg v => tok (.Argument v (argDiffAt d i))
  | .ArgWithBase v => tseq (tok (.Argument v (argDiffAt d i))) (tok (.Basic "("))
  | .Reloc =>
    match ins.reloc with
    | some reloc => trace_reloc reloc
    | none => terr .unwrapNone
  | .RelocWithBase =>
    tseq
      (match ins.reloc with
      | some reloc => trace_reloc reloc
      | none => terr .unwrapNone)
      (tok (.Basic "("))
  | .BranchOffset offset =>
    tok (.BranchTarget
      (u32OfI32 (i32Wrap (i32Wrap (offset + i32OfU32 ins.address) - i32OfU32 base))))

/-- Trace of the argument loop `display_args`. -/
def trace_args (d : ObjInsDiff) (ins : ObjIns) (base : Nat) :
    List ObjInsArg → Nat → Bool → TraceRes
  | [], _, _ => tpure
  | arg :: rest, i, wo =>
    tseq (if i = 0 then tok (.Spacing 1) else tpure)
      (tseq (if 0 < i ∧ ¬ wo then tok (.Basic ", ") else tpure)
        (tseq (trace_arg_tokens d ins base i arg)
          (tseq (if wo then tok (.Basic ")") else tpure)
            (trace_args d ins base rest (i + 1) (arg_opens_base arg)))))

/-- Trace of `display_diff`. -/
def trace_diff (d : ObjInsDiff) (base : Nat) : TraceRes :=
  match d.ins with
  | none => tok .Eol
  | some ins =>
    tseq
      (match ins.line with
      | some line => tok (.Line line)
      | none => tpure)
      (tseq (tok (.Address (u32sub ins.address base)))
        (tseq
          (match d.branch_from with
          | some branch => tok (.BasicColor " ~> " branch.branch_idx)
          | none => tok (.Spacing 4))
          (tseq (tok (.Opcode ins.mnemonic ins.op))
            (tseq (trace_args d ins base ins.args 0 false)
              (tseq
                (match d.branch_to with
                | some branch => tok (.BasicColor " ~>" branch.branch_idx)
                | none => tpure)
                (tok .Eol))))))

/-- Feed a list of tokens one at a time into a sink, stopping at the first
sink failure and returning it. -/
def sinkFold (cb : Sink σ E) : σ → List DiffText → Except E σ
  | s, [] => .ok s
  | s, t :: ts =>
    match cb s t with
    | .ok s2 => sinkFold cb s2 ts
    | .error e => .error e

/-- Replay a pure trace against a sink: deliver the trace's tokens in order,
abort with the sink's error (unchanged) at the first sink failure, and
otherwise finish with the trace's internal outcome. -/
def feedTrace (cb : Sink σ E) (s : σ) (tr : TraceRes) : Except (DisplayErr E) σ :=
  match sinkFold cb s tr.1 with
  | .error e => .error (.sink e)
  | .ok s2 =>
    match tr.2 with
    | some e => .error (.internal e)
    | none => .ok s2

theorem sinkFold_append (cb : Sink σ E) (s : σ) (ts us : List DiffText) :
    sinkFold cb s (ts ++ us) =
      match sinkFold cb s ts with
      | .ok s2 => sinkFold cb s2 us
      | .error e => .error e := by
  induction ts generalizing s with
  | nil => simp [sinkFold]
  | cons t ts ih =>
    simp only [List.cons_append, sinkFold]
    cases cb s t with
    | ok s2 => exact ih s2
    | error e => rfl

theorem feedTrace_tok (cb : Sink σ E) (s : σ) (t : DiffText) :
    feedTrace cb s (tok t) = emit cb s t := by
  cases h : cb s t <;> simp [feedTrace, sinkFold, tok, emit, h]

theorem feedTrace_tpure (cb : Sink σ E) (s : σ) :
    feedTrace cb s tpure = pure s := by
  simp [feedTrace, sinkFold, tpure, pure, Except.pure]

theorem feedTrace_terr (cb : Sink σ E) (s : σ) (e : InternalErr) :
    feedTrace cb s (terr e) = .error (.internal e) := by
  simp [feedTrace, sinkFold, terr]

theorem ok_bind (a : α) (f : α → Except ε β) :
    (Except.ok a : Except ε α) >>= f = f a := rfl

theorem error_bind (e : ε) (f : α → Except ε β) :
    (Except.error e : Except ε α) >>= f = Except.error e := rfl

theorem ite_bind (c : Prop) [Decidable c] (x y : Except ε α)
    (f : α → Except ε β) :
    (if c then x else y) >>= f = if c then x >>= f else y >>= f := by
  split <;> rfl

theorem feedTrace_tseq (cb : Sink σ E) (s : σ) (a b : TraceRes) :
    feedTrace cb s (tseq a b) =
      feedTrace cb s a >>= fun s2 => feedTrace cb s2 b := by
  obtain ⟨ts, oe⟩ := a
  cases oe with
  | some e =>
    simp only [tseq, feedTrace]
    cases sinkFold cb s ts <;> simp [error_bind]
  | none =>
    simp only [tseq, feedTrace, sinkFold_append]
    cases sinkFold cb s ts <;> simp [ok_bind, error_bind]

theorem feedTrace_ite (c : Prop) [Decidable c] (cb : Sink σ E) (s : σ)
    (a b : TraceRes) :
    feedTrace cb s (if c then a else b) =
      if c then feedTrace cb s a else feedTrace cb s b := by
  split <;> rfl

theorem display_reloc_name_sim (r : ObjReloc) (cb : Sink σ E) (s : σ) :
    display_reloc_name r cb s = feedTrace cb s (trace_reloc_name r) := by
  simp only [display_reloc_name, trace_reloc_name, feedTrace_tseq, feedTrace_tok]
  cases h : emit cb s (.Symbol r.target) with
  | error e => simp [error_bind]
  | ok s2 =>
    simp only [ok_bind]
    split <;> simp [feedTrace_tok, feedTrace_ite, feedTrace_tpure]

theorem display_reloc_sim (r : ObjReloc) (cb : Sink σ E) (s : σ) :
    display_reloc r cb s = feedTrace cb s (trace_reloc r) := by
  obtain ⟨k, tgt⟩ := r
  cases k <;>
    simp [display_reloc, trace_reloc, display_reloc_name_sim, feedTrace_tseq,
      feedTrace_tok, feedTrace_terr, feedTrace_tpure]

theorem display_arg_tokens_sim (d : ObjInsDiff) (ins : ObjIns) (base : Nat)
    (cb : Sink σ E) (i : Nat) (arg : ObjInsArg) (s : σ) :
    display_arg_tokens d ins base cb i arg s =
      feedTrace cb s (trace_arg_tokens d ins base i arg) := by
  cases arg with
  | Arg v => simp [display_arg_tokens, trace_arg_tokens, feedTrace_tok]
  | ArgWithBase v =>
    simp [display_arg_tokens, trace_arg_tokens, feedTrace_tseq, feedTrace_tok]
  | Reloc =>
    cases h : ins.reloc with
    | some r => simp [display_arg_tokens, trace_arg_tokens, h, display_reloc_sim]
    | none => simp [display_arg_tokens, trace_arg_tokens, h, feedTrace_terr]
  | RelocWithBase =>
    cases h : ins.reloc with
    | some r =>
      simp [display_arg_tokens, trace_arg_tokens, h, display_reloc_sim,
        feedTrace_tseq, feedTrace_tok]
    | none =>
      simp [display_arg_tokens, trace_arg_tokens, h, feedTrace_terr,
        feedTrace_tseq, feedTrace_tok, error_bind]
  | BranchOffset off =>
    simp [display_arg_tokens, trace_arg_tokens, feedTrace_tok]

theorem display_args_sim (d : ObjInsDiff) (ins : ObjIns) (base : Nat)
    (cb : Sink σ E) (args : List ObjInsArg) (i : Nat) (wo : Bool) (s : σ) :
    display_args d ins base cb args i wo s =
      feedTrace cb s (trace_args d ins base args i wo) := by
  induction args generalizing i wo s with
  | nil => simp [display_args, trace_args, feedTrace_tpure]
  | cons arg rest ih =>
    simp [display_args, trace_args, feedTrace_tseq, feedTrace_tok,
      feedTrace_tpure, feedTrace_ite, display_arg_tokens_sim, ih, ite_bind,
      pure_bind]

theorem display_diff_sim (d : ObjInsDiff) (base : Nat) (cb : Sink σ E) (s : σ) :
    display_diff d base cb s = feedTrace cb s (trace_diff d base) := by
  obtain ⟨oins, adiff, bf, bt⟩ := d
  cases oins with
  | none => simp [display_diff, trace_diff, feedTrace_tok]
  | some ins =>
    obtain ⟨addr, oline, mn, op, args, orel⟩ := ins
    cases oline <;> cases bf <;> cases bt <;>
      simp [display_diff, trace_diff, feedTrace_tseq, feedTrace_tok,
        feedTrace_tpure, display_args_sim]

/-!
## Arithmetic helpers
-/

theorem u32sub_of_le (a b : Nat) (hb : b ≤ a) (ha : a < 4294967296) :
    u32sub a b = a - b := by
  unfold u32sub
  omega

theorem i32Wrap_emod (z : Int) : i32Wrap z % 4294967296 = z % 4294967296 := by
  unfold i32Wrap
  omega

theorem i32OfU32_emod (n : Nat) :
    i32OfU32 n % 4294967296 = (n : Int) % 4294967296 := by
  unfold i32OfU32
  split <;> omega

theorem branch_target_arith (off : Int) (a b : Nat) :
    u32OfI32 (i32Wrap (i32Wrap (off + i32OfU32 a) - i32OfU32 b)) =
      ((off + a - b) % 4294967296).toNat := by
  unfold u32OfI32
  rw [i32Wrap_emod, Int.sub_emod, i32Wrap_emod, i32OfU32_emod b,
    Int.add_emod, i32OfU32_emod a, ← Int.add_emod, ← Int.sub_emod]

/-!
## Collector-run helpers
-/

theorem sinkFold_collect (l ts : List DiffText) :
    sinkFold collectSink l ts = .ok (l ++ ts) := by
  induction ts generalizing l with
  | nil => simp [sinkFold]
  | cons t ts ih => simp [sinkFold, collectSink, ih]

theorem feedTrace_collect (l : List DiffText) (tr : TraceRes) :
    feedTrace collectSink l tr =
      match tr.2 with
      | none => .ok (l ++ tr.1)
      | some e => .error (.internal e) := by
  cases h : tr.2 <;> simp [feedTrace, sinkFold_collect, h]

theorem trace_reloc_name_snd (r : ObjReloc) : (trace_reloc_name r).2 = none := by
  simp only [trace_reloc_name, tseq, tok, tpure]
  split_ifs <;> rfl

/-- Claim C2: for every `InstructionDiff` whose decoded instruction is
absent, `display_diff` invokes the sink exactly once, with the token `Eol`,
and returns success.  First conjunct: for an arbitrary sink the whole run
equals the single sink invocation on `Eol` (so no other sink call can occur
and a sink success yields success).  Second conjunct: the collected token
sequence is exactly `[Eol]`. -/
theorem claim_c2_absent_ins_eol (d : ObjInsDiff) (base : Nat) (σ E : Type)
    (cb : Sink σ E) (s : σ) (h : d.ins = none) :
    display_diff d base cb s = emit cb s .Eol ∧
      display_diff_list d base = .ok [.Eol] := by
  constructor
  · simp [display_diff, h]
  · simp [display_diff_list, display_diff, h, emit, collectSink]

/-- Witness for C2 at a concrete input. -/
theorem claim_c2_witness :
    (⟨none, [], none, none⟩ : ObjInsDiff).ins = none ∧
      (display_diff ⟨none, [], none, none⟩ 0 collectSink [] =
          emit collectSink [] .Eol ∧
        display_diff_list ⟨none, [], none, none⟩ 0 = .ok [.Eol]) :=
  ⟨rfl, claim_c2_absent_ins_eol ⟨none, [], none, none⟩ 0 (List DiffText) Empty
    collectSink [] rfl⟩

/-- Claim C6: for every relocation whose kind is `MipsGpRel32`, and for
every sink and state, `display_reloc` returns the
"unimplemented: mips gp_rel32" error.  Since the equation holds for every
sink whatsoever — including sinks that would fail or change the outcome if
invoked — the sink is never invoked and no token is emitted. -/
theorem claim_c6_gprel32_unimplemented (sym : ObjSymbol) (σ E : Type)
    (cb : Sink σ E) (s : σ) :
    display_reloc ⟨.MipsGpRel32, sym⟩ cb s =
      .error (.internal (.unimplemented "unimplemented: mips gp_rel32")) := by
  simp [display_reloc]

/-- Claim C5: emitting a relocation's name produces `Symbol(target)`
followed by exactly one addend token determined by the sign of the addend
(positive: `+0x…`, negative: `-0x…`, zero: nothing), plus the concrete
spec examples: addend `0x10` gives `+0x10`, addend `-0x4` gives `-0x4`,
addend `0` gives no addend token. -/
theorem claim_c5_reloc_name_addend (r : ObjReloc) (l : List DiffText) :
    display_reloc_name r collectSink l =
      .ok (l ++ DiffText.Symbol r.target ::
        (if 0 < r.target.addend then
          [DiffText.Basic ("+" ++ hexUpper r.target.addend.toNat)]
        else if r.target.addend < 0 then
          [DiffText.Basic ("-" ++ hexUpper (- r.target.addend).toNat)]
        else [])) ∧
      display_reloc_name ⟨.PpcRel24, ⟨"s", 16⟩⟩ collectSink [] =
        .ok [.Symbol ⟨"s", 16⟩, .Basic "+0x10"] ∧
      display_reloc_name ⟨.PpcRel24, ⟨"s", -4⟩⟩ collectSink [] =
        .ok [.Symbol ⟨"s", -4⟩, .Basic "-0x4"] ∧
      display_reloc_name ⟨.PpcRel24, ⟨"s", 0⟩⟩ collectSink [] =
        .ok [.Symbol ⟨"s", 0⟩] := by
  refine ⟨?_, by rfl, by rfl, by rfl⟩
  rw [display_reloc_name_sim, feedTrace_collect]
  simp only [trace_reloc_name, tseq, tok, tpure]
  split_ifs <;> rfl

/-- Claim C3: the relocation kind-to-style mapping is total and fixed.  For
every target symbol: the four PPC low/high/high-adjusted/small-data kinds
emit the name tokens (`(trace_reloc_name …).1`, characterized by C5)
followed by their distinct fixed suffix; the five MIPS wrapper kinds wrap
the name tokens in their distinct `%xxx( … )` syntax; PPC `REL24`/`REL14`
and MIPS `26` emit the bare name tokens; the absolute/invalid sentinel kind
emits the single token `[INVALID]` with no Symbol or addend token.  The two
final conjuncts are the spec's concrete examples. -/
theorem claim_c3_reloc_kind_mapping (sym : ObjSymbol) :
    display_reloc ⟨.PpcAddr16Lo, sym⟩ collectSink [] =
      .ok ((trace_reloc_name ⟨.PpcAddr16Lo, sym⟩).1 ++ [.Basic "@l"]) ∧
    display_reloc ⟨.PpcAddr16Hi, sym⟩ collectSink [] =
      .ok ((trace_reloc_name ⟨.PpcAddr16Hi, sym⟩).1 ++ [.Basic "@h"]) ∧
    display_reloc ⟨.PpcAddr16Ha, sym⟩ collectSink [] =
      .ok ((trace_reloc_name ⟨.PpcAddr16Ha, sym⟩).1 ++ [.Basic "@ha"]) ∧
    display_reloc ⟨.PpcEmbSda21, sym⟩ collectSink [] =
      .ok ((trace_reloc_name ⟨.PpcEmbSda21, sym⟩).1 ++ [.Basic "@sda21"]) ∧
    display_reloc ⟨.PpcRel24, sym⟩ collectSink [] =
      .ok (trace_reloc_name ⟨.PpcRel24, sym⟩).1 ∧
    display_reloc ⟨.PpcRel14, sym⟩ collectSink [] =
      .ok (trace_reloc_name ⟨.PpcRel14, sym⟩).1 ∧
    display_reloc ⟨.MipsHi16, sym⟩ collectSink [] =
      .ok (.Basic "%hi(" :: (trace_reloc_name ⟨.MipsHi16, sym⟩).1 ++ [.Basic ")"]) ∧
    display_reloc ⟨.MipsLo16, sym⟩ collectSink [] =
      .ok (.Basic "%lo(" :: (trace_reloc_name ⟨.MipsLo16, sym⟩).1 ++ [.Basic ")"]) ∧
    display_reloc ⟨.MipsGot16, sym⟩ collectSink [] =
      .ok (.Basic "%got(" :: (trace_reloc_name ⟨.MipsGot16, sym⟩).1 ++ [.Basic ")"]) ∧
    display_reloc ⟨.MipsCall16, sym⟩ collectSink [] =
      .ok (.Basic "%call16(" :: (trace_reloc_name ⟨.MipsCall16, sym⟩).1 ++ [.Basic ")"]) ∧
    display_reloc ⟨.MipsGpRel16, sym⟩ collectSink [] =
      .ok (.Basic "%gp_rel(" :: (trace_reloc_name ⟨.MipsGpRel16, sym⟩).1 ++ [.Basic ")"]) ∧
    display_reloc ⟨.Mips26, sym⟩ collectSink [] =
      .ok (trace_reloc_name ⟨.Mips26, sym⟩).1 ∧
    display_reloc ⟨.Absolute, sym⟩ collectSink [] =
      .ok [.Basic "[INVALID]"] ∧
    display_reloc ⟨.PpcAddr16Lo, ⟨"foo", 0⟩⟩ collectSink [] =
      .ok [.Symbol ⟨"foo", 0⟩, .Basic "@l"] ∧
    display_reloc ⟨.MipsHi16, ⟨"bar", 4⟩⟩ collectSink [] =
      .ok [.Basic "%hi(", .Symbol ⟨"bar", 4⟩, .Basic "+0x4", .Basic ")"] := by
  refine ⟨?_, ?_, ?_, ?_, ?_, ?_, ?_, ?_, ?_, ?_, ?_, ?_, ?_, by rfl, by rfl⟩ <;>
    rw [display_reloc_sim, feedTrace_collect] <;>
    simp [trace_reloc, tseq, tok, trace_reloc_name_snd]

/-- Concrete branch instruction for the C4 example: address `0x1000`,
single argument `BranchOffset (-0x20)`. -/
def c4ins : ObjIns := ⟨4096, none, "b", 18, [.BranchOffset (-32)], none⟩

/-- Instruction diff wrapping `c4ins`. -/
def c4diff : ObjInsDiff := ⟨some c4ins, [], none, none⟩

/-- Claim C4: a `BranchOffset(offset)` argument emits exactly one
`BranchTarget` token whose value is `offset + address − base` computed in
signed 32-bit (wrapping) arithmetic and reinterpreted as unsigned, i.e.
`((offset + address − base) mod 2^32)`; the loop then continues with no
pending parenthesis.  Second conjunct: the spec's concrete example —
address `0x1000`, offset `-0x20`, base `0` yields `BranchTarget 0xFE0`. -/
theorem claim_c4_branch_target (d : ObjInsDiff) (ins : ObjIns) (base : Nat)
    (σ E : Type) (cb : Sink σ E) (off : Int) (rest : List ObjInsArg)
    (j : Nat) (s : σ) :
    display_args d ins base cb (.BranchOffset off :: rest) (j + 1) false s =
      (emit cb s (.Basic ", ") >>= fun s2 =>
        emit cb s2 (.BranchTarget
          (((off + (ins.address : Int) - (base : Int)) % 4294967296).toNat)) >>= fun s3 =>
        display_args d ins base cb rest (j + 2) false s3) ∧
      display_diff_list c4diff 0 =
        .ok [.Address 4096, .Spacing 4, .Opcode "b" 18, .Spacing 1,
          .BranchTarget 4064, .Eol] := by
  refine ⟨?_, by rfl⟩
  simp [display_args, display_arg_tokens, arg_opens_base, branch_target_arith,
    pure_bind]

/-- Claim C10: the per-argument annotation lookup is total.  When the
annotation list is shorter than the loop index (in particular when it is
empty), the lookup yields `none` and the emitter still succeeds in emitting
`Argument(value, None)` for both plain and with-base value arguments. -/
theorem claim_c10_arg_diff_total (d : ObjInsDiff) (i : Nat) (ins : ObjIns)
    (base : Nat) (σ E : Type) (cb : Sink σ E) (v : ObjInsArgValue) (s : σ)
    (h : d.arg_diff.length ≤ i) :
    argDiffAt d i = none ∧
      display_arg_tokens d ins base cb i (.Arg v) s =
        emit cb s (.Argument v none) ∧
      display_arg_tokens d ins base cb i (.ArgWithBase v) s =
        (emit cb s (.Argument v none) >>= fun s2 => emit cb s2 (.Basic "(")) := by
  have hd : argDiffAt d i = none := by
    simp [argDiffAt, List.getElem?_eq_none h]
  exact ⟨hd, by simp [display_arg_tokens, hd], by simp [display_arg_tokens, hd]⟩

/-- Witness for C10 at a concrete input: empty annotation list, index 0. -/
theorem claim_c10_witness :
    (⟨some c4ins, [], none, none⟩ : ObjInsDiff).arg_diff.length ≤ 0 ∧
      (argDiffAt ⟨some c4ins, [], none, none⟩ 0 = none ∧
        display_arg_tokens ⟨some c4ins, [], none, none⟩ c4ins 0 collectSink 0
            (.Arg ⟨5⟩) [] =
          emit collectSink [] (.Argument ⟨5⟩ none) ∧
        display_arg_tokens ⟨some c4ins, [], none, none⟩ c4ins 0 collectSink 0
            (.ArgWithBase ⟨5⟩) [] =
          (emit collectSink [] (.Argument ⟨5⟩ none) >>= fun s2 =>
            emit collectSink s2 (.Basic "("))) :=
  ⟨Nat.le_refl 0,
    claim_c10_arg_diff_total ⟨some c4ins, [], none, none⟩ 0 c4ins 0
      (List DiffText) Empty collectSink ⟨5⟩ [] (Nat.le_refl 0)⟩

/-- Concrete instruction whose single argument is a base-opening argument:
used to refute the close-paren placement of claim C1. -/
def c1ins : ObjIns := ⟨0, none, "lwz", 1, [.ArgWithBase ⟨5⟩], none⟩

/-- Instruction diff wrapping `c1ins`. -/
def c1diff : ObjInsDiff := ⟨some c1ins, [], none, none⟩

/-- Counterexample to claim C1: for an instruction whose last (and only)
argument is tagged `ArgWithBase`, the emitted token stream contains the
opening `Basic("(")` but zero `Basic(")")` tokens — the claim's "exactly
one matching close-paren, emitted after the argument loop if the opening
argument was the last argument" is false on the code, which checks the
pending-parenthesis flag only inside the loop and discards it when the
loop ends. -/
theorem claim_c1_counterexample :
    display_diff_list c1diff 0 =
      .ok [.Address 0, .Spacing 4, .Opcode "lwz" 1, .Spacing 1,
        .Argument ⟨5⟩ none, .Basic "(", .Eol] ∧
      List.count (DiffText.Basic ")")
        [DiffText.Address 0, .Spacing 4, .Opcode "lwz" 1, .Spacing 1,
          .Argument ⟨5⟩ none, .Basic "(", .Eol] = 0 ∧
      List.count (DiffText.Basic "(")
        [DiffText.Address 0, .Spacing 4, .Opcode "lwz" 1, .Spacing 1,
          .Argument ⟨5⟩ none, .Basic "(", .Eol] = 1 :=
  ⟨rfl, by decide, by decide⟩

/-- Claim C1 as amended: each `ArgWithBase`/`RelocWithBase` argument opens
one parenthesis right after its value/relocation tokens; the matching
`Basic(")")` is emitted at the end of the NEXT argument's loop iteration,
i.e. immediately AFTER the following argument's own tokens (whose comma
separator is suppressed); if the opening argument is the last argument of
the instruction, no close-paren is emitted at all.  Conjunct 1: an
`ArgWithBase` step at a non-initial position emits `", "`, the value, and
`"("`, and continues with the pending flag set.  Conjunct 2: an iteration
entered with the pending flag set emits the current argument's own tokens
first and the close-paren right after them, with no comma separator.
Conjunct 3: a trailing `ArgWithBase` argument ends the loop with the
parenthesis left open.  Conjunct 4: the same opening behaviour for
`RelocWithBase`. -/
theorem claim_c1_base_paren_amended (d : ObjInsDiff) (ins : ObjIns)
    (base : Nat) (σ E : Type) (cb : Sink σ E) (j : Nat) (s : σ)
    (v : ObjInsArgValue) (b : ObjInsArg) (rest : List ObjInsArg) :
    display_args d ins base cb (.ArgWithBase v :: rest) (j + 1) false s =
      (emit cb s (.Basic ", ") >>= fun s1 =>
        emit cb s1 (.Argument v (argDiffAt d (j + 1))) >>= fun s2 =>
        emit cb s2 (.Basic "(") >>= fun s3 =>
        display_args d ins base cb rest (j + 2) true s3) ∧
    display_args d ins base cb (b :: rest) (j + 1) true s =
      (display_arg_tokens d ins base cb (j + 1) b s >>= fun s1 =>
        emit cb s1 (.Basic ")") >>= fun s2 =>
        display_args d ins base cb rest (j + 2) (arg_opens_base b) s2) ∧
    display_args d ins base cb [.ArgWithBase v] (j + 1) false s =
      (emit cb s (.Basic ", ") >>= fun s1 =>
        emit cb s1 (.Argument v (argDiffAt d (j + 1))) >>= fun s2 =>
        emit cb s2 (.Basic "(")) ∧
    display_args d ins base cb (.RelocWithBase :: rest) (j + 1) false s =
      (emit cb s (.Basic ", ") >>= fun s1 =>
        (match ins.reloc with
          | some reloc => display_reloc reloc cb s1
          | none => .error (.internal .unwrapNone)) >>= fun s2 =>
        emit cb s2 (.Basic "(") >>= fun s3 =>
        display_args d ins base cb rest (j + 2) true s3) := by
  refine ⟨?_, ?_, ?_, ?_⟩
  · simp [display_args, display_arg_tokens, arg_opens_base, pure_bind,
      bind_pure, bind_assoc]
  · simp [display_args, display_arg_tokens, arg_opens_base, pure_bind,
      bind_pure, bind_assoc]
  · simp [display_args, display_arg_tokens, arg_opens_base, pure_bind,
      bind_pure, bind_assoc]
  · cases h : ins.reloc <;>
      simp [display_args, display_arg_tokens, arg_opens_base, pure_bind,
        bind_pure, bind_assoc, h, error_bind]

/-- Instrument an arbitrary sink so that both outcomes carry the exact list
of tokens delivered to it so far (including the failing one): makes "k
tokens were delivered and no further sink calls occurred" observable. -/
def logSink (cb : Sink σ E) : Sink (σ × List DiffText) (E × List DiffText) :=
  fun p t =>
    match cb p.1 t with
    | .ok s2 => .ok (s2, p.2 ++ [t])
    | .error e => .error (e, p.2 ++ [t])

theorem sinkFold_logSink_ok (cb : Sink σ E) (ts : List DiffText) :
    ∀ (s s2 : σ) (l : List DiffText), sinkFold cb s ts = .ok s2 →
      sinkFold (logSink cb) (s, l) ts = .ok (s2, l ++ ts) := by
  induction ts with
  | nil =>
    intro s s2 l h
    simp [sinkFold] at h
    simp [sinkFold, h]
  | cons t ts ih =>
    intro s s2 l h
    simp only [sinkFold] at h ⊢
    cases hc : cb s t with
    | error e => rw [hc] at h; exact absurd h (by simp)
    | ok s3 =>
      rw [hc] at h
      simpa [logSink, hc, List.append_assoc] using ih s3 s2 (l ++ [t]) h

/-- Claim C7: if the sink succeeds on the tokens `pre` and then fails for
the first time on token `t` (the `(pre.length + 1)`-th token of the
instruction's emission trace), then `display_diff` returns that sink error
unchanged, and — made observable through the log-instrumented sink — the
delivered tokens are exactly `pre ++ [t]` (the failing call being the last;
no further sink calls occur). -/
theorem claim_c7_sink_failure (d : ObjInsDiff) (base : Nat) (σ E : Type)
    (cb : Sink σ E) (s s1 : σ) (pre post : List DiffText) (t : DiffText)
    (e : E)
    (h1 : (trace_diff d base).1 = pre ++ t :: post)
    (h2 : sinkFold cb s pre = .ok s1)
    (h3 : cb s1 t = .error e) :
    display_diff d base (logSink cb) (s, []) =
        .error (.sink (e, pre ++ [t])) ∧
      display_diff d base cb s = .error (.sink e) := by
  constructor
  · rw [display_diff_sim]
    unfold feedTrace
    rw [h1, sinkFold_append, sinkFold_logSink_ok cb pre s s1 [] h2]
    simp [sinkFold, logSink, h3]
  · rw [display_diff_sim]
    unfold feedTrace
    rw [h1, sinkFold_append, h2]
    simp [sinkFold, h3]

/-- A sink that fails on every call, used as the C7 witness sink. -/
def c7FailSink : Sink Unit Nat := fun _ _ => .error 7

/-- Witness for C7 at a concrete input: the trace is `[Eol]`, the sink
fails on the first token, exactly one token is delivered, and the error is
returned unchanged. -/
theorem claim_c7_witness :
    (trace_diff ⟨none, [], none, none⟩ 0).1 = [] ++ DiffText.Eol :: [] ∧
      sinkFold c7FailSink () [] = .ok () ∧
      c7FailSink () DiffText.Eol = .error 7 ∧
      (display_diff ⟨none, [], none, none⟩ 0 (logSink c7FailSink) ((), []) =
          .error (.sink (7, [] ++ [DiffText.Eol])) ∧
        display_diff ⟨none, [], none, none⟩ 0 c7FailSink () =
          .error (.sink 7)) :=
  ⟨rfl, rfl, rfl,
    claim_c7_sink_failure ⟨none, [], none, none⟩ 0 Unit Nat c7FailSink () ()
      [] [] DiffText.Eol 7 rfl rfl rfl⟩

theorem tseq_fst_ex (a b : TraceRes) : ∃ u, (tseq a b).1 = a.1 ++ u := by
  cases h : a.2 with
  | none => exact ⟨b.1, by simp [tseq, h]⟩
  | some e => exact ⟨[], by simp [tseq, h]⟩

theorem trace_args_cons_fst (d : ObjInsDiff) (ins : ObjIns) (base : Nat)
    (a : ObjInsArg) (rest : List ObjInsArg) :
    ∃ u, (trace_args d ins base (a :: rest) 0 false).1 =
      DiffText.Spacing 1 :: u := by
  simp only [trace_args, if_pos rfl]
  simp [tseq, tok, tpure]

theorem trace_diff_header (d : ObjInsDiff) (ins : ObjIns) (base : Nat)
    (h1 : d.ins = some ins) :
    (trace_diff d base).1 =
      (match ins.line with
        | some line => [DiffText.Line line]
        | none => []) ++
      DiffText.Address (u32sub ins.address base) ::
      (match d.branch_from with
        | some branch => DiffText.BasicColor " ~> " branch.branch_idx
        | none => DiffText.Spacing 4) ::
      DiffText.Opcode ins.mnemonic ins.op ::
      (tseq (trace_args d ins base ins.args 0 false)
        (tseq
          (match d.branch_to with
          | some branch => tok (.BasicColor " ~>" branch.branch_idx)
          | none => tpure)
          (tok .Eol))).1 := by
  cases hl : ins.line <;> cases hbf : d.branch_from <;>
    simp [trace_diff, h1, hl, hbf, tseq, tok, tpure]

/-- Claim C8: for a decoded instruction with at least one argument, the
token stream starts with exactly: `Line(line)` iff the instruction has a
source line, then `Address(address − base)` (unsigned subtraction, exact
under the caller-guaranteed precondition `base ≤ address` for in-range
addresses), then `BasicColor(" ~> ", idx)` if the instruction has an
incoming branch link and `Spacing(4)` otherwise, then
`Opcode(mnemonic, op)`, then `Spacing(1)` before the first argument. -/
theorem claim_c8_header_order (d : ObjInsDiff) (ins : ObjIns) (base : Nat)
    (a : ObjInsArg) (rest : List ObjInsArg)
    (h1 : d.ins = some ins) (h2 : base ≤ ins.address)
    (h3 : ins.address < 4294967296) (h4 : ins.args = a :: rest) :
    ∃ tail, (trace_diff d base).1 =
      (match ins.line with
        | some line => [DiffText.Line line]
        | none => []) ++
      DiffText.Address (ins.address - base) ::
      (match d.branch_from with
        | some branch => DiffText.BasicColor " ~> " branch.branch_idx
        | none => DiffText.Spacing 4) ::
      DiffText.Opcode ins.mnemonic ins.op ::
      DiffText.Spacing 1 :: tail := by
  obtain ⟨u1, hu1⟩ := tseq_fst_ex (trace_args d ins base ins.args 0 false)
    (tseq
      (match d.branch_to with
      | some branch => tok (.BasicColor " ~>" branch.branch_idx)
      | none => tpure)
      (tok .Eol))
  obtain ⟨u2, hu2⟩ := trace_args_cons_fst d ins base a rest
  refine ⟨u2 ++ u1, ?_⟩
  rw [trace_diff_header d ins base h1, hu1, u32sub_of_le _ _ h2 h3, h4, hu2]
  simp

/-- Concrete instruction for the C8 witness. -/
def c8ins : ObjIns := ⟨4, some 7, "mr", 2, [.Arg ⟨9⟩], none⟩

/-- Instruction diff for the C8 witness: incoming branch link, base 1. -/
def c8diff : ObjInsDiff := ⟨some c8ins, [], some ⟨3⟩, none⟩

/-- Witness for C8 at a concrete input: address `4`, base `1`, a source
line, an incoming branch link, and one argument. -/
theorem claim_c8_witness :
    c8diff.ins = some c8ins ∧
      1 ≤ c8ins.address ∧
      c8ins.address < 4294967296 ∧
      c8ins.args = .Arg ⟨9⟩ :: [] ∧
      (∃ tail,
        (trace_diff c8diff 1).1 =
          (match c8ins.line with
            | some line => [DiffText.Line line]
            | none => []) ++
          DiffText.Address (c8ins.address - 1) ::
          (match c8diff.branch_from with
            | some branch => DiffText.BasicColor " ~> " branch.branch_idx
            | none => DiffText.Spacing 4) ::
          DiffText.Opcode c8ins.mnemonic c8ins.op ::
          DiffText.Spacing 1 :: tail) :=
  ⟨rfl, by decide, by decide, rfl,
    claim_c8_header_order c8diff c8ins 1 (.Arg ⟨9⟩) [] rfl (by decide)
      (by decide) rfl⟩

theorem tseq_snd_ne (a b : TraceRes) (x : InternalErr)
    (ha : a.2 ≠ some x) (hb : b.2 ≠ some x) : (tseq a b).2 ≠ some x := by
  cases h : a.2 with
  | none => simpa [tseq, h] using hb
  | some e =>
    rw [h] at ha
    simpa [tseq, h] using ha

theorem trace_reloc_snd (r : ObjReloc) :
    (trace_reloc r).2 ≠ some InternalErr.unwrapNone := by
  obtain ⟨k, tgt⟩ := r
  cases k <;>
    simp [trace_reloc, tseq, tok, terr, trace_reloc_name_snd]

theorem ite_tok_tpure_snd (c : Prop) [Decidable c] (t : DiffText)
    (x : InternalErr) : (if c then tok t else tpure).2 ≠ some x := by
  split <;> simp [tok, tpure]

theorem trace_arg_tokens_snd (d : ObjInsDiff) (ins : ObjIns) (base : Nat)
    (i : Nat) (arg : ObjInsArg)
    (h : (arg = ObjInsArg.Reloc ∨ arg = ObjInsArg.RelocWithBase) →
      ins.reloc ≠ none) :
    (trace_arg_tokens d ins base i arg).2 ≠ some InternalErr.unwrapNone := by
  cases arg with
  | Arg v => simp [trace_arg_tokens, tok]
  | ArgWithBase v => simp [trace_arg_tokens, tseq, tok]
  | BranchOffset off => simp [trace_arg_tokens, tok]
  | Reloc =>
    cases hr : ins.reloc with
    | some r => simpa [trace_arg_tokens, hr] using trace_reloc_snd r
    | none => exact absurd hr (h (Or.inl rfl))
  | RelocWithBase =>
    cases hr : ins.reloc with
    | some r =>
      simp only [trace_arg_tokens, hr]
      exact tseq_snd_ne _ _ _ (trace_reloc_snd r) (by simp [tok])
    | none => exact absurd hr (h (Or.inr rfl))

theorem trace_args_snd (d : ObjInsDiff) (ins : ObjIns) (base : Nat)
    (args : List ObjInsArg) :
    ∀ (i : Nat) (wo : Bool),
      (∀ arg ∈ args, (arg = ObjInsArg.Reloc ∨ arg = ObjInsArg.RelocWithBase) →
        ins.reloc ≠ none) →
      (trace_args d ins base args i wo).2 ≠ some InternalErr.unwrapNone := by
  induction args with
  | nil => intro i wo _; simp [trace_args, tpure]
  | cons arg rest ih =>
    intro i wo h
    simp only [trace_args]
    refine tseq_snd_ne _ _ _ (ite_tok_tpure_snd _ _ _)
      (tseq_snd_ne _ _ _ (ite_tok_tpure_snd _ _ _)
        (tseq_snd_ne _ _ _
          (trace_arg_tokens_snd d ins base i arg
            (h arg (List.mem_cons_self arg rest)))
          (tseq_snd_ne _ _ _ (ite_tok_tpure_snd _ _ _)
            (ih (i + 1) (arg_opens_base arg)
              (fun a ha => h a (List.mem_cons_of_mem arg ha))))))

theorem trace_diff_snd (d : ObjInsDiff) (ins : ObjIns) (base : Nat)
    (h1 : d.ins = some ins)
    (h : ∀ arg ∈ ins.args,
      (arg = ObjInsArg.Reloc ∨ arg = ObjInsArg.RelocWithBase) →
        ins.reloc ≠ none) :
    (trace_diff d base).2 ≠ some InternalErr.unwrapNone := by
  simp only [trace_diff, h1]
  refine tseq_snd_ne _ _ _ (by cases ins.line <;> simp [tok, tpure])
    (tseq_snd_ne _ _ _ (by simp [tok])
      (tseq_snd_ne _ _ _ (by cases d.branch_from <;> simp [tok])
        (tseq_snd_ne _ _ _ (by simp [tok])
          (tseq_snd_ne _ _ _ (trace_args_snd d ins base ins.args 0 false h)
            (tseq_snd_ne _ _ _ (by cases d.branch_to <;> simp [tok, tpure])
              (by simp [tok]))))))

/-- Claim C9: under the precondition that the instruction carries a
non-absent relocation record whenever any of its arguments is tagged
`Reloc` or `RelocWithBase`, emission never reaches the failure branch of
the unchecked `ins.reloc.as_ref().unwrap()` (modelled by the
`InternalErr.unwrapNone` outcome, which is produced nowhere else): for
every sink and state, the run never returns that outcome.  The
precondition is a hypothesis, not a runtime check. -/
theorem claim_c9_reloc_unwrap_safe (d : ObjInsDiff) (ins : ObjIns)
    (base : Nat) (σ E : Type) (cb : Sink σ E) (s : σ)
    (h1 : d.ins = some ins)
    (h2 : (ObjInsArg.Reloc ∈ ins.args ∨ ObjInsArg.RelocWithBase ∈ ins.args) →
      ins.reloc ≠ none) :
    display_diff d base cb s ≠ .error (.internal .unwrapNone) := by
  have hpt : ∀ arg ∈ ins.args,
      (arg = ObjInsArg.Reloc ∨ arg = ObjInsArg.RelocWithBase) →
        ins.reloc ≠ none := by
    intro arg ha hor
    cases hor with
    | inl h => exact h2 (Or.inl (h ▸ ha))
    | inr h => exact h2 (Or.inr (h ▸ ha))
  have hsnd := trace_diff_snd d ins base h1 hpt
  rw [display_diff_sim]
  intro hc
  unfold feedTrace at hc
  cases hsf : sinkFold cb s (trace_diff d base).1 with
  | error e => rw [hsf] at hc; simp at hc
  | ok s2 =>
    rw [hsf] at hc
    cases ht : (trace_diff d base).2 with
    | none => rw [ht] at hc; simp at hc
    | some e =>
      rw [ht] at hc
      simp only [Except.error.injEq, DisplayErr.internal.injEq] at hc
      exact hsnd (ht.trans (by rw [hc]))

/-- Concrete instruction for the C9 witness: a `Reloc` argument with the
relocation record present. -/
def c9ins : ObjIns := ⟨0, none, "bl", 3, [.Reloc], some ⟨.PpcRel24, ⟨"f", 0⟩⟩⟩

/-- Instruction diff for the C9 witness. -/
def c9diff : ObjInsDiff := ⟨some c9ins, [], none, none⟩

/-- Witness for C9 at a concrete input. -/
theorem claim_c9_witness :
    c9diff.ins = some c9ins ∧
      ((ObjInsArg.Reloc ∈ c9ins.args ∨ ObjInsArg.RelocWithBase ∈ c9ins.args) →
        c9ins.reloc ≠ none) ∧
      display_diff c9diff 0 collectSink [] ≠
        .error (.internal .unwrapNone) :=
  ⟨rfl, fun _ => by decide,
    claim_c9_reloc_unwrap_safe c9diff c9ins 0 (List DiffText) Empty
      collectSink [] rfl (fun _ => by decide)⟩
